import Mathlib

/-!
Shallow embedding of `homeassistant/components/voip/sip.py`.

The source is a small SIP endpoint:
  * `SIPDatagramProtocol._parse_sip` parses a SIP message (method, headers, body),
  * `SIPDatagramProtocol.datagram_received` decodes a UDP datagram, parses it,
    extracts the caller RTP port from the SDP body and the server IP from the
    `To` header, and calls `on_call` with a `CallInfo`; every exception is
    caught by a surrounding `try/except`,
  * `SIPDatagramProtocol.answer` formats and sends a `SIP/2.0 200 OK` reply.

Python strings are modelled as Lean `String` (a sequence of Unicode scalar
values, like Python `str` for the strict-decoded text handled here); Python
`bytes` as `List Nat`.  Python exceptions become `Except PyErr`; the
`try/except` in `datagram_received` becomes a `match` that maps every error to
`none`.  The Python library functions used by the source (`str.splitlines`,
`str.split`, `str.strip`, `str.lower`, `int`, `bytes.decode`) are modelled
below; Unicode-only behaviours that the source never relies on (non-ASCII
case mapping for `str.lower`, non-ASCII decimal digits for `int` and `\d`)
are restricted to their ASCII behaviour, with the full Python whitespace and
line-boundary character sets kept.
-/

set_option maxRecDepth 40000

/-- Decidable equality for `Except`, used to evaluate the embedded
functions on concrete inputs. -/
instance {α β : Type} [DecidableEq α] [DecidableEq β] : DecidableEq (Except α β) := fun x y =>
  match x, y with
  | .ok a, .ok b =>
    if h : a = b then isTrue (by rw [h]) else isFalse (by intro hh; cases hh; exact h rfl)
  | .error a, .error b =>
    if h : a = b then isTrue (by rw [h]) else isFalse (by intro hh; cases hh; exact h rfl)
  | .ok _, .error _ => isFalse (by intro hh; cases hh)
  | .error _, .ok _ => isFalse (by intro hh; cases hh)

/-- Python exception kinds that can be raised inside the modelled code. -/
inductive PyErr where
  | unicodeDecodeError
  | indexError
  | valueError
  | keyError
  | assertionError
  deriving DecidableEq

/-- Python line-boundary characters: `str.splitlines` splits on each of
these (with `"\r\n"` counting as a single boundary). -/
def isLB (c : Char) : Bool :=
  let n := c.toNat
  n == 10 || n == 11 || n == 12 || n == 13 || n == 28 || n == 29 || n == 30 ||
    n == 0x85 || n == 0x2028 || n == 0x2029

/-- Python whitespace characters (`str.isspace`), used by `str.strip()` and
no-argument `str.split()`. -/
def pyIsSpace (c : Char) : Bool :=
  let n := c.toNat
  (9 ≤ n && n ≤ 13) || n == 28 || n == 29 || n == 30 || n == 31 || n == 32 ||
    n == 0x85 || n == 0xa0 || n == 0x1680 || (0x2000 ≤ n && n ≤ 0x200a) ||
    n == 0x2028 || n == 0x2029 || n == 0x202f || n == 0x205f || n == 0x3000

/-- ASCII decimal digit test. -/
def isAsciiDigit (c : Char) : Bool :=
  48 ≤ c.toNat && c.toNat ≤ 57

/-- Python `str.lower` on one character, restricted to ASCII (the source only
lowercases header names and the request method, which are ASCII). -/
def pyLowerChar (c : Char) : Char :=
  if 65 ≤ c.toNat && c.toNat ≤ 90 then Char.ofNat (c.toNat + 32) else c

/-- Python `str.lower`. -/
def pyLower (s : String) : String :=
  ⟨s.data.map pyLowerChar⟩

/-- Worker for `str.splitlines`: `acc` holds the current line reversed. -/
def slGo (acc : List Char) : List Char → List (List Char)
  | [] => if acc = [] then [] else [acc.reverse]
  | c :: cs =>
    if isLB c then
      acc.reverse ::
        (match cs with
         | [] => []
         | d :: cs1 => if c = '\r' && d = '\n' then slGo [] cs1 else slGo [] (d :: cs1))
    else slGo (c :: acc) cs

/-- Python `str.splitlines()` (without keepends). -/
def pySplitlines (s : String) : List String :=
  (slGo [] s.data).map String.mk

/-- Worker for `str.split(sep, maxsplit=1)`: returns the parts around the
first occurrence of `sep`, or `none` when `sep` does not occur. -/
def splitOnceGo (sep : Char) (acc : List Char) : List Char → Option (List Char × List Char)
  | [] => none
  | c :: cs => if c = sep then some (acc.reverse, cs) else splitOnceGo sep (c :: acc) cs

/-- Python `str.split(sep, maxsplit=1)` for a one-character separator.
`none` models the one-element result list (which makes a two-variable
unpacking raise `ValueError` in the source). -/
def pySplitOnce (sep : Char) (s : String) : Option (String × String) :=
  match splitOnceGo sep [] s.data with
  | none => none
  | some (a, b) => some (⟨a⟩, ⟨b⟩)

/-- Worker for no-argument `str.split()`: `cur` holds the current token
reversed. -/
def splitWsGo (cur : List Char) : List Char → List (List Char)
  | [] => if cur = [] then [] else [cur.reverse]
  | c :: cs =>
    if pyIsSpace c then
      if cur = [] then splitWsGo [] cs else cur.reverse :: splitWsGo [] cs
    else splitWsGo (c :: cur) cs

/-- Python no-argument `str.split()`: whitespace-delimited tokens, empty
tokens dropped. -/
def pySplitWs (s : String) : List String :=
  (splitWsGo [] s.data).map String.mk

/-- Drop trailing Python whitespace from a character list. -/
def dropTrailingWs : List Char → List Char
  | [] => []
  | c :: cs =>
    match dropTrailingWs cs with
    | [] => if pyIsSpace c then [] else [c]
    | r => c :: r

/-- Python `str.strip()` on a character list. -/
def stripL (cs : List Char) : List Char :=
  dropTrailingWs (cs.dropWhile pyIsSpace)

/-- Python `str.strip()`. -/
def pyStrip (s : String) : String :=
  ⟨stripL s.data⟩

/-- Python length of a string (number of code points). -/
def pyLen (s : String) : Nat :=
  s.data.length

/-- Python slice `s[n:]` (by code points, clamped at the end). -/
def strDrop (n : Nat) (s : String) : String :=
  ⟨s.data.drop n⟩

/-- Digit-run parser for `int`: ASCII digits with single underscores allowed
between digits (Python 3 numeric literal grouping). -/
def intDigitsGo : List Char → Nat → Option Nat
  | [], acc => some acc
  | c :: cs, acc =>
    if isAsciiDigit c then intDigitsGo cs (acc * 10 + (c.toNat - 48))
    else if c = '_' then
      match cs with
      | d :: cs1 =>
        if isAsciiDigit d then intDigitsGo cs1 (acc * 10 + (d.toNat - 48)) else none
      | [] => none
    else none

/-- Python `int(s)` for a decimal string: optional surrounding whitespace,
optional single sign, then a nonempty digit run (underscores only between
digits).  Digits are restricted to ASCII. -/
def pyInt (s : String) : Except PyErr Int :=
  match stripL s.data with
  | [] => .error .valueError
  | c :: cs =>
    if c = '+' then
      match cs with
      | [] => .error .valueError
      | d :: ds =>
        if isAsciiDigit d then
          match intDigitsGo ds (d.toNat - 48) with
          | some n => .ok (n : Int)
          | none => .error .valueError
        else .error .valueError
    else if c = '-' then
      match cs with
      | [] => .error .valueError
      | d :: ds =>
        if isAsciiDigit d then
          match intDigitsGo ds (d.toNat - 48) with
          | some n => .ok (-(n : Int))
          | none => .error .valueError
        else .error .valueError
    else if isAsciiDigit c then
      match intDigitsGo cs (c.toNat - 48) with
      | some n => .ok (n : Int)
      | none => .error .valueError
    else .error .valueError

/-- Decimal digit character for `natToDec`. -/
def digitChar : Nat → Char
  | 0 => '0'
  | 1 => '1'
  | 2 => '2'
  | 3 => '3'
  | 4 => '4'
  | 5 => '5'
  | 6 => '6'
  | 7 => '7'
  | 8 => '8'
  | _ => '9'

/-- Fuelled decimal printer (fuel bounds the number of digits). -/
def natToDecGo : Nat → Nat → List Char
  | 0, _ => []
  | fuel + 1, n =>
    if n < 10 then [digitChar n] else natToDecGo fuel (n / 10) ++ [digitChar (n % 10)]

/-- Python `str(n)` for a nonnegative integer: its decimal digits. -/
def natToDec (n : Nat) : String :=
  ⟨natToDecGo (n + 1) n⟩

/-- Byte length of one scalar value in UTF-8. -/
def csize (c : Char) : Nat :=
  if c.toNat < 0x80 then 1
  else if c.toNat < 0x800 then 2
  else if c.toNat < 0x10000 then 3
  else 4

/-- Byte length of a string in UTF-8 (Python `len(s.encode())`). -/
def utf8Len (s : String) : Nat :=
  (s.data.map csize).sum

/-- Strict UTF-8 decoder on bytes, per Python `bytes.decode()`: rejects
invalid start bytes, overlong encodings, surrogates, values above U+10FFFF
and truncated sequences. -/
def utf8Go : List Nat → Option (List Char)
  | [] => some []
  | b :: bs =>
    if b < 0x80 then (utf8Go bs).map (fun cs => Char.ofNat b :: cs)
    else if b < 0xC2 then none
    else if b < 0xE0 then
      match bs with
      | b1 :: bs1 =>
        if 0x80 ≤ b1 ∧ b1 < 0xC0 then
          (utf8Go bs1).map (fun cs => Char.ofNat ((b - 0xC0) * 0x40 + (b1 - 0x80)) :: cs)
        else none
      | [] => none
    else if b < 0xF0 then
      match bs with
      | b1 :: b2 :: bs2 =>
        let lo := if b = 0xE0 then 0xA0 else 0x80
        let hi := if b = 0xED then 0xA0 else 0xC0
        if lo ≤ b1 ∧ b1 < hi ∧ 0x80 ≤ b2 ∧ b2 < 0xC0 then
          (utf8Go bs2).map (fun cs =>
            Char.ofNat ((b - 0xE0) * 0x1000 + (b1 - 0x80) * 0x40 + (b2 - 0x80)) :: cs)
        else none
      | _ => none
    else if b < 0xF5 then
      match bs with
      | b1 :: b2 :: b3 :: bs3 =>
        let lo := if b = 0xF0 then 0x90 else 0x80
        let hi := if b = 0xF4 then 0x90 else 0xC0
        if lo ≤ b1 ∧ b1 < hi ∧ 0x80 ≤ b2 ∧ b2 < 0xC0 ∧ 0x80 ≤ b3 ∧ b3 < 0xC0 then
          (utf8Go bs3).map (fun cs =>
            Char.ofNat ((b - 0xF0) * 0x40000 + (b1 - 0x80) * 0x1000 +
              (b2 - 0x80) * 0x40 + (b3 - 0x80)) :: cs)
        else none
      | _ => none
    else none

/-- Python `data.decode()`: strict UTF-8, `none` models `UnicodeDecodeError`. -/
def utf8Decode (bs : List Nat) : Option String :=
  (utf8Go bs).map String.mk

/-- Encoding of one scalar value in UTF-8. -/
def utf8EncodeChar (c : Char) : List Nat :=
  let n := c.toNat
  if n < 0x80 then [n]
  else if n < 0x800 then [0xC0 + n / 0x40, 0x80 + n % 0x40]
  else if n < 0x10000 then [0xE0 + n / 0x1000, 0x80 + n / 0x40 % 0x40, 0x80 + n % 0x40]
  else [0xF0 + n / 0x40000, 0x80 + n / 0x1000 % 0x40, 0x80 + n / 0x40 % 0x40, 0x80 + n % 0x40]

/-- Python `s.encode()`: UTF-8 bytes of a string. -/
def utf8Encode (s : String) : List Nat :=
  s.data.foldr (fun c acc => utf8EncodeChar c ++ acc) []

/-- A Python `dict[str, str]` as an insertion-ordered association list with
unique keys. -/
abbrev HMap := List (String × String)

/-- Python `d[k] = v`: update in place when the key exists, else append. -/
def hinsert (hm : HMap) (k v : String) : HMap :=
  match hm with
  | [] => [(k, v)]
  | (k1, v1) :: t => if k1 = k then (k, v) :: t else (k1, v1) :: hinsert t k v

/-- Python `d[k]` as an option (`none` models `KeyError`). -/
def hfind (hm : HMap) (k : String) : Option String :=
  match hm with
  | [] => none
  | (k1, v1) :: t => if k1 = k then some v1 else hfind t k

/-- The `CallInfo` dataclass of the source. -/
structure CallInfo where
  caller_ip : String
  caller_sip_port : Nat
  caller_rtp_port : Int
  server_ip : String
  headers : HMap
  deriving DecidableEq

/-- Pair of `(takeWhile digit, dropWhile digit)`: the maximal leading digit run. -/
def spanDigits (cs : List Char) : List Char × List Char :=
  (cs.takeWhile isAsciiDigit, cs.dropWhile isAsciiDigit)

/-- Remainder check after `>` for the `_SIP_IP` regex parameter group
`(;.+)?$`: Python `$` also matches just before one trailing `"\n"`, and `.`
matches everything except `"\n"`. -/
def paramTailOk : List Char → Bool
  | [] => false
  | cs =>
    let core := if cs.getLast? = some '\n' then cs.dropLast else cs
    !core.isEmpty && !core.contains '\n'

/-- Remainder check after the closing `>` of the `_SIP_IP` regex. -/
def tailOk : List Char → Bool
  | [] => true
  | c :: cs => if c = ';' then paramTailOk cs else c = '\n' && cs = []

/-- The source regex
`^<sip:(\d{1,3}\.\d{1,3}\.\d{1,3}\.\d{1,3}):\d+>(;.+)?$` applied with
`re.match`, returning `group(1)` (the dotted-quad address).  Each `\d{1,3}`
is a maximal digit run of length 1 to 3 (the following literal is a
non-digit, so regex backtracking adds nothing); `\d` is restricted to ASCII
digits. -/
def sipIpMatchL (cs : List Char) : Option String :=
  match cs with
  | '<' :: 's' :: 'i' :: 'p' :: ':' :: r0 =>
    let (d1, r1) := spanDigits r0
    if d1.length < 1 ∨ 3 < d1.length then none else
    match r1 with
    | '.' :: r2 =>
      let (d2, r3) := spanDigits r2
      if d2.length < 1 ∨ 3 < d2.length then none else
      match r3 with
      | '.' :: r4 =>
        let (d3, r5) := spanDigits r4
        if d3.length < 1 ∨ 3 < d3.length then none else
        match r5 with
        | '.' :: r6 =>
          let (d4, r7) := spanDigits r6
          if d4.length < 1 ∨ 3 < d4.length then none else
          match r7 with
          | ':' :: r8 =>
            let (p, r9) := spanDigits r8
            if p = [] then none else
            match r9 with
            | '>' :: r10 =>
              if tailOk r10 then
                some ⟨d1 ++ '.' :: d2 ++ '.' :: d3 ++ '.' :: d4⟩
              else none
            | _ => none
          | _ => none
        | _ => none
      | _ => none
    | _ => none
  | _ => none

/-- Result of `_SIP_IP.match(s)` followed by `.group(1)`. -/
def sipIpMatch (s : String) : Option String :=
  sipIpMatchL s.data

/-- First whitespace-delimited token of a string (`s.split()[0]` as an
option). -/
def firstToken (s : String) : Option String :=
  (pySplitWs s).head?

/-- The header loop of `_parse_sip` over the lines after the first: stops at
the first empty line, accumulates `offset` (each nonempty line counts its
length plus the length of `"\r\n"`) and the header mapping
(`headers[key.lower()] = value.strip()`); a header line without `":"` raises
`ValueError`. -/
def headerLoop : List String → Nat → HMap → Except PyErr (Nat × HMap)
  | [], off, hm => .ok (off, hm)
  | l :: ls, off, hm =>
    if l = "" then .ok (off, hm)
    else
      match pySplitOnce ':' l with
      | none => .error .valueError
      | some (k, v) => headerLoop ls (off + pyLen l + 2) (hinsert hm (pyLower k) (pyStrip v))

/-- Model of `SIPDatagramProtocol._parse_sip`: split into lines, take the first
line's first token as the method (raising `IndexError` when the first line
has no token), read `Name: Value` headers up to the first blank line, and
return `message[offset:]` as the body. -/
def parse_sip (msg : String) : Except PyErr (Option String × HMap × String) :=
  match pySplitlines msg with
  | [] => .ok (none, [], msg)
  | first :: rest =>
    let off0 := if first = "" then 0 else pyLen first + 2
    match pySplitWs first with
    | [] => .error .indexError
    | tok :: _ =>
      match headerLoop rest off0 [] with
      | .error e => .error e
      | .ok (off, hm) => .ok (some tok, hm, strDrop off msg)

/-- The body loop of `datagram_received`: for each stripped nonempty line
`key=value` (raising `ValueError` without `"="`), when `key == "m"` split the
value on whitespace; when the first token is `"audio"` assign
`caller_rtp_port = int(parts[1])` (later matches overwrite earlier ones; the
loop has no break).  `IndexError` models a missing `parts[0]`/`parts[1]`. -/
def scanBody : List String → Option Int → Except PyErr (Option Int)
  | [], acc => .ok acc
  | l :: ls, acc =>
    let s := pyStrip l
    if s = "" then scanBody ls acc
    else
      match pySplitOnce '=' s with
      | none => .error .valueError
      | some (k, v) =>
        if k = "m" then
          match pySplitWs v with
          | [] => .error .indexError
          | p0 :: rest =>
            if p0 = "audio" then
              match rest with
              | [] => .error .indexError
              | p1 :: _ =>
                match pyInt p1 with
                | .error e => .error e
                | .ok n => scanBody ls (some n)
            else scanBody ls acc
        else scanBody ls acc

/-- The invite-processing part of `datagram_received` after the method
check: scan the body for the RTP port (`assert` raises when absent), look up
`headers["to"]` (`KeyError` when absent), match `_SIP_IP` (`assert` raises on
no match) and build the `CallInfo` passed to `on_call`.  `.ok (some ci)`
means `on_call` was invoked exactly once with `ci`; `.ok none` means the
function returned without emitting. -/
def processInvite (headers : HMap) (body : String) (addr : String × Nat) :
    Except PyErr (Option CallInfo) :=
  match scanBody (pySplitlines body) none with
  | .error e => .error e
  | .ok none => .error .assertionError
  | .ok (some port) =>
    match hfind headers "to" with
    | none => .error .keyError
    | some toV =>
      match sipIpMatch toV with
      | none => .error .assertionError
      | some serverIp =>
        .ok (some ⟨addr.1, addr.2, port, serverIp, headers⟩)

/-- The body of the `try` block of `datagram_received` on decoded text:
parse, drop non-INVITE requests (`if method and method.lower() != "invite"`,
with Python truthiness of the method string), then process the invite. -/
def processMessage (msg : String) (addr : String × Nat) : Except PyErr (Option CallInfo) :=
  match parse_sip msg with
  | .error e => .error e
  | .ok (method, headers, body) =>
    match method with
    | some m =>
      if m ≠ "" ∧ pyLower m ≠ "invite" then .ok none
      else processInvite headers body addr
    | none => processInvite headers body addr

/-- Model of `datagram_received` on decoded text: the surrounding `try/except
Exception` maps every raised error to "no call emitted". -/
def handleMessage (msg : String) (addr : String × Nat) : Option CallInfo :=
  match processMessage msg addr with
  | .ok r => r
  | .error _ => none

/-- Model of `SIPDatagramProtocol.datagram_received`: decode the datagram as UTF-8
(a `UnicodeDecodeError` is caught by the same `try/except`) and process it.
The result is the `CallInfo` passed to `on_call`, or `none` when nothing is
emitted; no exception ever escapes. -/
def datagram_received (data : List Nat) (addr : String × Nat) : Option CallInfo :=
  match utf8Decode data with
  | none => none
  | some msg => handleMessage msg addr

/-- Constant `_SDP_USERNAME`. -/
def sdpUsername : String := "homeassistant"

/-- Constant `_SDP_ID = "".join(str(ord(c)) for c in "hass")`. -/
def sdpId : String :=
  (("hass" : String).data.map (fun c => natToDec c.toNat)).foldl (fun a b => a ++ b) ""

/-- Constant `_OPUS_PAYLOAD`. -/
def opusPayload : String := "123"

/-- Python `"\r\n".join(lines)`. -/
def joinCRLF : List String → String
  | [] => ""
  | [l] => l
  | l :: ls => l ++ "\r\n" ++ joinCRLF ls

/-- The `body_lines` list of `answer` (its last element is the literal
`_CRLF`). -/
def bodyLines (server_ip : String) (server_rtp_port : Nat) : List String :=
  ["v=0",
   "o=" ++ sdpUsername ++ " " ++ sdpId ++ " 1 IN IP4 " ++ server_ip,
   "s=" ++ sdpUsername ++ " 1.0",
   "c=IN IP4 " ++ server_ip,
   "t=0 0",
   "m=audio " ++ natToDec server_rtp_port ++ " RTP/AVP " ++ opusPayload,
   "a=rtpmap:" ++ opusPayload ++ " opus/48000/2",
   "a=ptime:20",
   "a=maxptime:150",
   "a=sendrecv",
   "\r\n"]

/-- The SDP body built by `answer`: `_CRLF.join(body_lines)`. -/
def sdpBody (server_ip : String) (server_rtp_port : Nat) : String :=
  joinCRLF (bodyLines server_ip server_rtp_port)

/-- The `response_headers` dict literal of `answer`, in insertion order (all
keys distinct, so Python iterates in exactly this order); `Content-Length`
is `len(body)` formatted in decimal. -/
def responseHeaders (via frm to_ cid cseq contact body : String) : List (String × String) :=
  [("Via", via),
   ("From", frm),
   ("To", to_),
   ("Call-ID", cid),
   ("Content-Type", "application/sdp"),
   ("Content-Length", natToDec (pyLen body)),
   ("CSeq", cseq),
   ("Contact", contact),
   ("User-Agent", sdpUsername ++ " 1.0"),
   ("Allow", "INVITE, ACK, BYE, CANCEL, OPTIONS")]

/-- The response string of `answer`: status line, `Key: Value` header lines,
an appended `_CRLF` element, all joined with `_CRLF`, then the body. -/
def responseString (via frm to_ cid cseq contact body : String) : String :=
  joinCRLF (["SIP/2.0 200 OK"] ++
      (responseHeaders via frm to_ cid cseq contact body).map
        (fun kv => kv.1 ++ ": " ++ kv.2) ++
      ["\r\n"]) ++ body

/-- Python `headers[k]` with `KeyError` on absence. -/
def getH (headers : HMap) (k : String) : Except PyErr String :=
  match hfind headers k with
  | some v => .ok v
  | none => .error .keyError

/-- Model of `SIPDatagramProtocol.answer`: `assert self.transport is not None` raises
`AssertionError` when no transport is bound; otherwise build the SDP body and
the response from the echoed inbound headers and return the datagram that is
handed to `transport.sendto` together with its destination.  An `.error`
result models the exception propagating to the caller (there is no
`try/except` in `answer`), in which case no datagram is sent. -/
def answer (transport : Option Unit) (headers : HMap) (caller_ip : String)
    (caller_sip_port : Nat) (server_ip : String) (server_rtp_port : Nat) :
    Except PyErr (String × String × Nat) :=
  match transport with
  | none => .error .assertionError
  | some _ =>
    let body := sdpBody server_ip server_rtp_port
    match getH headers "via" with
    | .error e => .error e
    | .ok via =>
      match getH headers "from" with
      | .error e => .error e
      | .ok frm =>
        match getH headers "to" with
        | .error e => .error e
        | .ok to_ =>
          match getH headers "call-id" with
          | .error e => .error e
          | .ok cid =>
            match getH headers "cseq" with
            | .error e => .error e
            | .ok cseq =>
              match getH headers "contact" with
              | .error e => .error e
              | .ok contact =>
                .ok (responseString via frm to_ cid cseq contact body,
                  caller_ip, caller_sip_port)

/-- The mutable state of a `SIPDatagramProtocol` instance relevant to
`answer`: only `self.transport` (written once by `connection_made`). -/
structure SipProto where
  transport : Option Unit
  deriving DecidableEq

/-- One call of the `answer` method on an instance: the method reads
`self.transport` and assigns no attribute, so the state is returned
unchanged alongside the send result. -/
def answerCall (p : SipProto) (headers : HMap) (caller_ip : String)
    (caller_sip_port : Nat) (server_ip : String) (server_rtp_port : Nat) :
    SipProto × Except PyErr (String × String × Nat) :=
  (p, answer p.transport headers caller_ip caller_sip_port server_ip server_rtp_port)

/-- A CRLF-terminated SIP message: first line, header lines, a blank line,
then the raw remainder. -/
def mkTail : List String → String → String
  | [], rest => "\r\n" ++ rest
  | h :: t, rest => h ++ "\r\n" ++ mkTail t rest

/-- Message `mkMsg f hs rest = f\r\n h1\r\n … hn\r\n \r\n rest`. -/
def mkMsg (f : String) (hs : List String) (rest : String) : String :=
  f ++ "\r\n" ++ mkTail hs rest

/-- The header mapping `_parse_sip` builds from a list of header lines. -/
def hstep (hm : HMap) (h : String) : HMap :=
  match pySplitOnce ':' h with
  | some (k, v) => hinsert hm (pyLower k) (pyStrip v)
  | none => hm

/-- Header mapping of a list of header lines. -/
def headersOf (hs : List String) : HMap :=
  hs.foldl hstep []

/-- No line-boundary character occurs in `s`. -/
def noLBs (s : String) : Bool :=
  s.data.all (fun c => !(isLB c))

/-- Holds when `s` contains no `":"`. -/
def noColonStr (s : String) : Bool :=
  !(s.data.contains ':')

/-- Every character of `s` is ASCII. -/
def asciiStr (s : String) : Bool :=
  s.data.all (fun c => c.toNat < 128)

/-- Holds when `s` consists of ASCII digits only. -/
def isDigits (s : String) : Bool :=
  s.data.all isAsciiDigit

/-- Well-formedness of one header line for `_parse_sip`: nonempty, no line
boundary inside, and containing a `":"`. -/
def hdrOk (h : String) : Bool :=
  !(h == "") && noLBs h && (pySplitOnce ':' h).isSome

/-- Well-formedness of a header line list. -/
def hdrsOk (hs : List String) : Bool :=
  hs.all hdrOk

/-- The parsed method is absent or (case-insensitively) `INVITE`. -/
def methodInvite : Option String → Bool
  | none => true
  | some t => pyLower t == "invite"

/-- Numeric value of an ASCII digit string. -/
def digitsValN (s : String) : Nat :=
  s.data.foldl (fun a c => a * 10 + (c.toNat - 48)) 0

/-- Numeric value of an ASCII digit string, as a Python int. -/
def digitsVal (s : String) : Int :=
  (digitsValN s : Int)

/-- A body line acceptable to the claim-1 scan: blank after stripping, or of
`key=value` form with every `m`-keyed line equal to the fixed audio media
line. -/
def goodC1 (l : String) : Bool :=
  (pyStrip l == "") ||
    (match pySplitOnce '=' (pyStrip l) with
     | none => false
     | some kv => !(kv.1 == "m") || (pyStrip l == "m=audio 49170 RTP/AVP 0"))

/-- A stripped-nonempty body line with no `"="` (the claim-10 failure
witness shape). -/
def badEqLine (l : String) : Bool :=
  !(pyStrip l == "") && !((pyStrip l).data.contains '=')

/-- Total `\r\n`-terminated length of a list of header lines, as accumulated
by the `offset` variable of `_parse_sip`. -/
def sumLens (hs : List String) : Nat :=
  hs.foldr (fun h n => pyLen h + 2 + n) 0

/-- Spec-side reading of one session-description line, following the claim's
words: for a line whose key is `m` and whose first value token is `audio`,
the integer second token of its value; `none` for every other line.  Its
case structure mirrors the body loop of `datagram_received` so the two can
be compared. -/
def audioPortOf (l : String) : Option Int :=
  match pySplitOnce '=' (pyStrip l) with
  | none => none
  | some (k, v) =>
    if k = "m" then
      match pySplitWs v with
      | [] => none
      | p0 :: rest =>
        if p0 = "audio" then
          match rest with
          | [] => none
          | p1 :: _ =>
            match pyInt p1 with
            | .ok n => some n
            | .error _ => none
        else none
    else none

/-- Last-audio-line accumulator starting from `acc`: each audio media line
replaces the accumulated port, every other line leaves it unchanged. -/
def lastAudioPortFrom (acc : Option Int) (L : List String) : Option Int :=
  L.foldl
    (fun a x =>
      match audioPortOf x with
      | some q => some q
      | none => a) acc

/-- Spec-side reading of the claim: the integer second token of the LAST
audio media line of the body, `none` when no audio media line exists. -/
def lastAudioPort (L : List String) : Option Int :=
  lastAudioPortFrom none L

/-- A body line the scan of `datagram_received` processes without raising:
blank after stripping, or a `key=value` line that is either not an audio
media line or an audio media line whose second value token exists and
parses as an integer. -/
def scanOkLine (l : String) : Bool :=
  (pyStrip l == "") ||
    (match pySplitOnce '=' (pyStrip l) with
     | none => false
     | some (k, v) =>
       if k == "m" then
         match pySplitWs v with
         | [] => false
         | p0 :: rest =>
           if p0 == "audio" then
             match rest with
             | [] => false
             | p1 :: _ =>
               match pyInt p1 with
               | .ok _ => true
               | .error _ => false
           else true
       else true)

/- ======================  lemmas  ====================== -/

theorem digit_bounds {c : Char} (h : isAsciiDigit c = true) :
    48 ≤ c.toNat ∧ c.toNat ≤ 57 := by
  simpa [isAsciiDigit] using h

theorem digit_not_space {c : Char} (h : isAsciiDigit c = true) : pyIsSpace c = false := by
  obtain ⟨h1, h2⟩ := digit_bounds h
  simp only [pyIsSpace, Bool.or_eq_false_iff, Bool.and_eq_false_iff,
    decide_eq_false_iff_not, not_le, beq_eq_false_iff_ne, ne_eq]
  omega

theorem digit_not_lb {c : Char} (h : isAsciiDigit c = true) : isLB c = false := by
  obtain ⟨h1, h2⟩ := digit_bounds h
  simp only [isLB, Bool.or_eq_false_iff, beq_eq_false_iff_ne, ne_eq]
  omega

theorem digit_ascii {c : Char} (h : isAsciiDigit c = true) : c.toNat < 128 := by
  obtain ⟨h1, h2⟩ := digit_bounds h
  omega

theorem digitChar_digit (d : Nat) : isAsciiDigit (digitChar d) = true := by
  unfold digitChar
  split <;> decide

theorem natToDecGo_digits (fuel : Nat) :
    ∀ n c, c ∈ natToDecGo fuel n → isAsciiDigit c = true := by
  induction fuel with
  | zero => intro n c hc; simp [natToDecGo] at hc
  | succ fuel ih =>
    intro n c hc
    by_cases h : n < 10
    · simp [natToDecGo, h] at hc
      simpa [hc] using digitChar_digit n
    · simp [natToDecGo, h, List.mem_append] at hc
      rcases hc with hc | hc
      · exact ih _ _ hc
      · simpa [hc] using digitChar_digit (n % 10)

theorem natToDec_digits (n : Nat) : isDigits (natToDec n) = true := by
  simp only [isDigits, natToDec, List.all_eq_true]
  intro c hc
  exact natToDecGo_digits _ _ _ hc

theorem isDigits_mem {s : String} (h : isDigits s = true) :
    ∀ c ∈ s.data, isAsciiDigit c = true := by
  simpa [isDigits, List.all_eq_true] using h

/-- Dropping leading whitespace does nothing when every character is
non-whitespace. -/
theorem dropWhile_nonspace {l : List Char} (h : ∀ c ∈ l, pyIsSpace c = false) :
    l.dropWhile pyIsSpace = l := by
  cases l with
  | nil => rfl
  | cons c cs => simp [List.dropWhile_cons, h c (by simp)]

theorem dtw_step (c : Char) (cs : List Char) :
    dropTrailingWs (c :: cs) =
      match dropTrailingWs cs with
      | [] => if pyIsSpace c = true then [] else [c]
      | r => c :: r := rfl

theorem dtw_nonspace {l : List Char} (h : ∀ c ∈ l, pyIsSpace c = false) :
    dropTrailingWs l = l := by
  induction l with
  | nil => rfl
  | cons c cs ih =>
    have hc : pyIsSpace c = false := h c (by simp)
    have ht : dropTrailingWs cs = cs := ih (fun d hd => h d (by simp [hd]))
    rw [dtw_step, ht]
    cases cs with
    | nil => simp [hc]
    | cons d ds => rfl

theorem stripL_nonspace {l : List Char} (h : ∀ c ∈ l, pyIsSpace c = false) :
    stripL l = l := by
  rw [stripL, dropWhile_nonspace h, dtw_nonspace h]

theorem dtw_last {l : List Char} {z : Char} (hz : pyIsSpace z = false) :
    dropTrailingWs (l ++ [z]) = l ++ [z] := by
  induction l with
  | nil => simp [dropTrailingWs, hz]
  | cons c cs ih =>
    rw [List.cons_append, dtw_step, ih]
    cases cs with
    | nil => rfl
    | cons d ds => rfl

/-- Stripping keeps a list whose first and last characters are not
whitespace. -/
theorem stripL_ends {c z : Char} {mid : List Char}
    (hc : pyIsSpace c = false) (hz : pyIsSpace z = false) :
    stripL (c :: (mid ++ [z])) = c :: (mid ++ [z]) := by
  have h2 : List.dropWhile pyIsSpace (c :: (mid ++ [z])) = c :: (mid ++ [z]) := by
    simp [List.dropWhile_cons, hc]
  have h3 : dropTrailingWs ((c :: mid) ++ [z]) = (c :: mid) ++ [z] := dtw_last hz
  show dropTrailingWs (List.dropWhile pyIsSpace (c :: (mid ++ [z]))) = _
  rw [h2]
  exact h3

theorem stripL_cons_space {c : Char} {l : List Char} (hc : pyIsSpace c = true) :
    stripL (c :: l) = stripL l := by
  simp [stripL, List.dropWhile_cons, hc]

/-- Prepending one space strips back to `X` when `X` is already stripped. -/
theorem strip_space_append {X : String} (h : pyStrip X = X) :
    pyStrip (" " ++ X) = X := by
  have hd : (" " ++ X).data = ' ' :: X.data := by
    rw [String.data_append]; rfl
  apply String.ext
  have := congrArg String.data h
  simp only [pyStrip] at this ⊢
  rw [hd, stripL_cons_space (by decide)]
  exact this

/- splitlines -/

theorem slGo_nonlb {c : Char} (h : isLB c = false) (acc : List Char) (cs : List Char) :
    slGo acc (c :: cs) = slGo (c :: acc) cs := by
  rw [slGo.eq_def]
  simp only [h, Bool.false_eq_true, if_false]

theorem slGo_crlf (acc : List Char) (cs : List Char) :
    slGo acc ('\r' :: '\n' :: cs) = acc.reverse :: slGo [] cs := by
  rw [slGo.eq_def]
  simp [show isLB '\x0d' = true by decide]

/-- A boundary-free line followed by CRLF contributes one line. -/
theorem slGo_line {l : List Char} (h : ∀ c ∈ l, isLB c = false) :
    ∀ (acc rest : List Char),
      slGo acc (l ++ '\r' :: '\n' :: rest) = (acc.reverse ++ l) :: slGo [] rest := by
  induction l with
  | nil => intro acc rest; simpa using slGo_crlf acc rest
  | cons c cs ih =>
    intro acc rest
    have hc : isLB c = false := h c (by simp)
    rw [List.cons_append, slGo_nonlb hc, ih (fun d hd => h d (by simp [hd]))]
    simp

/-- A trailing boundary-free chunk is (at most) one final line. -/
theorem slGo_end {l : List Char} (h : ∀ c ∈ l, isLB c = false) :
    ∀ acc : List Char,
      slGo acc l = if acc.reverse ++ l = [] then [] else [acc.reverse ++ l] := by
  induction l with
  | nil => intro acc; simp [slGo]
  | cons c cs ih =>
    intro acc
    have hc : isLB c = false := h c (by simp)
    rw [slGo_nonlb hc, ih (fun d hd => h d (by simp [hd]))]
    simp

/- split once -/

theorem splitOnceGo_key {sep : Char} {k : List Char} (h : ∀ c ∈ k, c ≠ sep) :
    ∀ (acc v : List Char),
      splitOnceGo sep acc (k ++ sep :: v) = some (acc.reverse ++ k, v) := by
  induction k with
  | nil => intro acc v; simp [splitOnceGo]
  | cons c cs ih =>
    intro acc v
    have hc : c ≠ sep := h c (by simp)
    rw [List.cons_append]
    simp only [splitOnceGo, hc, if_false]
    rw [ih (fun d hd => h d (by simp [hd]))]
    simp

theorem splitOnce_no_sep {sep : Char} {l : List Char} (h : ∀ c ∈ l, c ≠ sep) :
    ∀ acc : List Char, splitOnceGo sep acc l = none := by
  induction l with
  | nil => intro acc; rfl
  | cons c cs ih =>
    intro acc
    have hc : c ≠ sep := h c (by simp)
    simp only [splitOnceGo, hc, if_false]
    exact ih (fun d hd => h d (by simp [hd])) _

/- whitespace split -/

theorem splitWsGo_token {t : List Char} (h : ∀ c ∈ t, pyIsSpace c = false) :
    ∀ (cur rest : List Char), cur ≠ [] ∨ t ≠ [] →
      splitWsGo cur (t ++ ' ' :: rest) = (cur.reverse ++ t) :: splitWsGo [] rest := by
  induction t with
  | nil =>
    intro cur rest hne
    have hcur : cur ≠ [] := by tauto
    have hsp : pyIsSpace ' ' = true := by decide
    simp [splitWsGo, hsp, hcur]
  | cons c cs ih =>
    intro cur rest _
    have hc : pyIsSpace c = false := h c (by simp)
    rw [List.cons_append]
    have hstep : splitWsGo cur (c :: (cs ++ ' ' :: rest)) =
        splitWsGo (c :: cur) (cs ++ ' ' :: rest) := by
      simp [splitWsGo, hc]
    rw [hstep, ih (fun d hd => h d (by simp [hd])) (c :: cur) rest (by simp)]
    simp

theorem splitWsGo_last {t : List Char} (h : ∀ c ∈ t, pyIsSpace c = false) :
    ∀ cur : List Char,
      splitWsGo cur t =
        if cur.reverse ++ t = [] then [] else [cur.reverse ++ t] := by
  induction t with
  | nil => intro cur; simp [splitWsGo]
  | cons c cs ih =>
    intro cur
    have hc : pyIsSpace c = false := h c (by simp)
    have hstep : splitWsGo cur (c :: cs) = splitWsGo (c :: cur) cs := by
      simp [splitWsGo, hc]
    rw [hstep, ih (fun d hd => h d (by simp [hd]))]
    simp

/- message-shape lemmas -/

theorem noLBs_mem {l : String} (h : noLBs l = true) : ∀ c ∈ l.data, isLB c = false := by
  intro c hc
  have := (List.all_eq_true.mp h) c hc
  simpa using this

theorem str_mk_data (s : String) : String.mk s.data = s := rfl

theorem pySplitlines_append {l : String} (rest : String) (h : noLBs l = true) :
    pySplitlines (l ++ "\r\n" ++ rest) = l :: pySplitlines rest := by
  have hd : (l ++ "\r\n" ++ rest).data = l.data ++ '\r' :: '\n' :: rest.data := by
    rw [String.data_append, String.data_append]
    simp
  rw [pySplitlines, hd, slGo_line (noLBs_mem h)]
  simp [pySplitlines]

theorem pySplitlines_crlf (rest : String) :
    pySplitlines ("\r\n" ++ rest) = "" :: pySplitlines rest := by
  have hd : ("\r\n" ++ rest).data = '\r' :: '\n' :: rest.data := by
    rw [String.data_append]; rfl
  rw [pySplitlines, hd, slGo_crlf]
  simp [pySplitlines]

theorem hdrOk_parts {h : String} (hh : hdrOk h = true) :
    h ≠ "" ∧ noLBs h = true ∧ (pySplitOnce ':' h).isSome = true := by
  have := hh
  simp only [hdrOk, Bool.and_eq_true, Bool.not_eq_true', beq_eq_false_iff_ne, ne_eq] at this
  exact ⟨this.1.1, this.1.2, this.2⟩

theorem hdrsOk_head {h : String} {t : List String} (hh : hdrsOk (h :: t) = true) :
    hdrOk h = true ∧ hdrsOk t = true := by
  simpa [hdrsOk] using hh

theorem splitlines_mkTail (hs : List String) (rest : String) (h : hdrsOk hs = true) :
    pySplitlines (mkTail hs rest) = hs ++ ("" :: pySplitlines rest) := by
  induction hs with
  | nil => simpa [mkTail] using pySplitlines_crlf rest
  | cons h0 t ih =>
    obtain ⟨hh0, ht⟩ := hdrsOk_head h
    rw [mkTail, pySplitlines_append (mkTail t rest) (hdrOk_parts hh0).2.1, ih ht]
    simp

theorem sumLens_cons (h : String) (t : List String) :
    sumLens (h :: t) = pyLen h + 2 + sumLens t := rfl

theorem headerLoop_ok (hs : List String) (T : List String) (off : Nat) (hm : HMap)
    (h : hdrsOk hs = true) :
    headerLoop (hs ++ "" :: T) off hm = .ok (off + sumLens hs, hs.foldl hstep hm) := by
  induction hs generalizing off hm with
  | nil => simp [headerLoop, sumLens]
  | cons h0 t ih =>
    obtain ⟨hh0, ht⟩ := hdrsOk_head h
    obtain ⟨hne, _, hsome⟩ := hdrOk_parts hh0
    obtain ⟨kv, hkv⟩ := Option.isSome_iff_exists.mp hsome
    obtain ⟨k, v⟩ := kv
    rw [List.cons_append, headerLoop.eq_def]
    simp only [hne, if_false, hkv]
    rw [ih _ _ ht]
    have harith : off + pyLen h0 + 2 + sumLens t = off + sumLens (h0 :: t) := by
      rw [sumLens_cons]; omega
    rw [harith]
    have hfold : List.foldl hstep hm (h0 :: t) = List.foldl hstep (hstep hm h0) t := rfl
    rw [hfold, hstep, hkv]

theorem drop_mkTail (hs : List String) (rest : String) :
    (mkTail hs rest).data.drop (sumLens hs) = '\r' :: '\n' :: rest.data := by
  induction hs with
  | nil =>
    rw [mkTail, String.data_append]
    rfl
  | cons h0 t ih =>
    have hd : (mkTail (h0 :: t) rest).data =
        h0.data ++ '\r' :: '\n' :: (mkTail t rest).data := by
      rw [mkTail, String.data_append, String.data_append]
      simp
    rw [hd, sumLens_cons]
    have harith : pyLen h0 + 2 + sumLens t = h0.data.length + (2 + sumLens t) := by
      simp [pyLen]; omega
    rw [harith, List.drop_append]
    rw [show 2 + sumLens t = sumLens t + 1 + 1 by omega]
    rw [List.drop_succ_cons, List.drop_succ_cons]
    exact ih

theorem firstToken_cons {f tok : String} (h : firstToken f = some tok) :
    ∃ ts, pySplitWs f = tok :: ts := by
  cases hsw : pySplitWs f with
  | nil => rw [firstToken, hsw] at h; simp at h
  | cons t ts =>
    rw [firstToken, hsw] at h
    simp at h
    exact ⟨ts, by rw [h]⟩

theorem firstToken_ne_empty {f tok : String} (h : firstToken f = some tok) : f ≠ "" := by
  intro hf
  rw [hf] at h
  simp [firstToken, pySplitWs, splitWsGo] at h

/-- Parsing a CRLF-terminated message with a tokenful first line and
well-formed header lines: the method is the first token, the headers are the
folded header mapping, and the body is the message suffix starting at the
blank-line separator. -/
theorem parse_mkMsg (f : String) (hs : List String) (rest : String) (tok : String)
    (hf1 : firstToken f = some tok) (hf2 : noLBs f = true) (hh : hdrsOk hs = true) :
    parse_sip (mkMsg f hs rest) = .ok (some tok, headersOf hs, "\r\n" ++ rest) := by
  have hfne : f ≠ "" := firstToken_ne_empty hf1
  obtain ⟨ts, hsw⟩ := firstToken_cons hf1
  have hsl : pySplitlines (mkMsg f hs rest) = f :: (hs ++ "" :: pySplitlines rest) := by
    rw [mkMsg, pySplitlines_append (mkTail hs rest) hf2, splitlines_mkTail hs rest hh]
  rw [parse_sip.eq_def, hsl]
  simp only [hfne, if_false, hsw]
  rw [headerLoop_ok hs (pySplitlines rest) (pyLen f + 2) [] hh]
  have hbody : strDrop (pyLen f + 2 + sumLens hs) (mkMsg f hs rest) = "\r\n" ++ rest := by
    apply String.ext
    rw [strDrop]
    have hd : (mkMsg f hs rest).data = f.data ++ '\r' :: '\n' :: (mkTail hs rest).data := by
      rw [mkMsg, String.data_append, String.data_append]
      simp
    rw [hd]
    have harith : pyLen f + 2 + sumLens hs = f.data.length + (2 + sumLens hs) := by
      simp [pyLen]; omega
    rw [harith, List.drop_append, String.data_append]
    rw [show 2 + sumLens hs = sumLens hs + 1 + 1 by omega]
    rw [List.drop_succ_cons, List.drop_succ_cons, drop_mkTail]
    rfl
  show Except.ok (some tok, List.foldl hstep [] hs,
      strDrop (pyLen f + 2 + sumLens hs) (mkMsg f hs rest)) =
    Except.ok (some tok, headersOf hs, "\r\n" ++ rest)
  rw [hbody]
  rfl

/- string helper lemmas -/

theorem str_assoc (a b c : String) : (a ++ b) ++ c = a ++ (b ++ c) := by
  apply String.ext
  simp [String.data_append]

theorem str_ne_empty {s : String} (h : s.data ≠ []) : s ≠ "" := by
  intro hc
  exact h (by rw [hc])

theorem append_ne_empty_left {a : String} (b : String) (h : a.data ≠ []) : a ++ b ≠ "" := by
  apply str_ne_empty
  rw [String.data_append]
  intro hc
  exact h (List.append_eq_nil.mp hc).1

theorem noLBs_append (a b : String) : noLBs (a ++ b) = (noLBs a && noLBs b) := by
  simp [noLBs, String.data_append, List.all_append]

theorem asciiStr_append (a b : String) : asciiStr (a ++ b) = (asciiStr a && asciiStr b) := by
  simp [asciiStr, String.data_append, List.all_append]

theorem contains_false_notmem {L : List Char} {a : Char} (h : L.contains a = false) :
    ∀ c ∈ L, c ≠ a := by
  intro c hc hca
  subst hca
  have h2 : ¬ (c ∈ L) := by simpa using h
  exact h2 hc

/- int parsing -/

theorem digit_ne {c d : Char} (h : isAsciiDigit c = true) (hd : isAsciiDigit d = false) :
    c ≠ d := by
  intro hcd
  rw [hcd, hd] at h
  cases h

theorem intDigitsGo_digits {cs : List Char} (h : ∀ c ∈ cs, isAsciiDigit c = true) :
    ∀ acc, intDigitsGo cs acc =
      some (cs.foldl (fun a c => a * 10 + (c.toNat - 48)) acc) := by
  induction cs with
  | nil => intro acc; rfl
  | cons c cs ih =>
    intro acc
    have hc : isAsciiDigit c = true := h c (by simp)
    rw [intDigitsGo.eq_def]
    simp only [hc, if_true]
    rw [ih (fun d hd => h d (by simp [hd]))]
    rfl

theorem strip_digits {s : String} (h : isDigits s = true) : pyStrip s = s := by
  apply String.ext
  exact stripL_nonspace (fun c hc => digit_not_space (isDigits_mem h c hc))

theorem pyInt_digits {s : String} (h : isDigits s = true) (hne : s ≠ "") :
    pyInt s = .ok (digitsVal s) := by
  have hmem := isDigits_mem h
  have hdata : s.data ≠ [] := by
    intro hc
    exact hne (String.ext hc)
  have hstrip : stripL s.data = s.data :=
    stripL_nonspace (fun c hc => digit_not_space (hmem c hc))
  rw [pyInt.eq_def, hstrip]
  cases hd : s.data with
  | nil => exact absurd hd hdata
  | cons c cs =>
    have hc : isAsciiDigit c = true := hmem c (by rw [hd]; simp)
    have hplus : c ≠ '+' := digit_ne hc (by decide)
    have hminus : c ≠ '-' := digit_ne hc (by decide)
    simp only [hplus, hminus, if_false, hc, if_true]
    rw [intDigitsGo_digits (fun d hdm => hmem d (by rw [hd]; simp [hdm]))]
    have hval : digitsVal s = ((c :: cs).foldl (fun a x => a * 10 + (x.toNat - 48)) 0 : Nat) := by
      rw [digitsVal, digitsValN, hd]
    rw [hval]
    simp

/- ascii byte length -/

theorem csize_one {c : Char} (h : c.toNat < 128) : csize c = 1 := by
  simp only [csize]
  rw [if_pos (by omega : c.toNat < 0x80)]

theorem sumCsize_ascii {l : List Char} (h : ∀ c ∈ l, c.toNat < 128) :
    (l.map csize).sum = l.length := by
  induction l with
  | nil => rfl
  | cons c cs ih =>
    rw [List.map_cons, List.sum_cons, csize_one (h c (by simp)),
      ih (fun d hd => h d (by simp [hd])), List.length_cons]
    omega

theorem utf8Len_ascii {s : String} (h : asciiStr s = true) : utf8Len s = pyLen s := by
  rw [utf8Len, pyLen]
  refine sumCsize_ascii ?_
  intro c hc
  have := (List.all_eq_true.mp h) c hc
  simpa using this

/- scanBody lemmas -/

theorem scanBody_blank (ls : List String) (acc : Option Int) :
    scanBody ("" :: ls) acc = scanBody ls acc := rfl

theorem scanBody_cons_cases (l : String) (ls : List String) (acc : Option Int) :
    (∃ e, scanBody (l :: ls) acc = .error e) ∨
      (∃ acc2, scanBody (l :: ls) acc = scanBody ls acc2) := by
  rw [scanBody.eq_def]
  simp only []
  split
  · right; exact ⟨acc, rfl⟩
  · split
    · left; exact ⟨.valueError, rfl⟩
    · split
      · split
        · left; exact ⟨.indexError, rfl⟩
        · split
          · split
            · left; exact ⟨.indexError, rfl⟩
            · split
              · left; exact ⟨_, rfl⟩
              · right; exact ⟨_, rfl⟩
          · right; exact ⟨acc, rfl⟩
      · right; exact ⟨acc, rfl⟩

theorem scanBody_bad {L : List String} (h : ∃ l ∈ L, badEqLine l = true) :
    ∀ acc, ∃ e, scanBody L acc = .error e := by
  induction L with
  | nil => simp at h
  | cons l ls ih =>
    intro acc
    obtain ⟨l0, hmem, hbad⟩ := h
    rcases List.mem_cons.mp hmem with hl | hl
    · subst hl
      have h1 : pyStrip l0 ≠ "" := by
        have := hbad
        simp only [badEqLine, Bool.and_eq_true, Bool.not_eq_true', beq_eq_false_iff_ne, ne_eq] at this
        exact this.1
      have h2 : splitOnceGo '=' [] (pyStrip l0).data = none := by
        have hcont : ((pyStrip l0).data.contains '=') = false := by
          have := hbad
          simp only [badEqLine, Bool.and_eq_true, Bool.not_eq_true'] at this
          exact this.2
        exact splitOnce_no_sep (contains_false_notmem hcont) []
      refine ⟨.valueError, ?_⟩
      rw [scanBody.eq_def]
      simp only [h1, if_false, pySplitOnce, h2]
    · rcases scanBody_cons_cases l ls acc with ⟨e, he⟩ | ⟨acc2, hstep⟩
      · exact ⟨e, he⟩
      · rw [hstep]
        exact ih ⟨l0, hl, hbad⟩ acc2

/- the C1-style scan: every m-keyed line is the fixed audio line -/

theorem scanBody_good {L : List String} (hgood : ∀ l ∈ L, goodC1 l = true) :
    ∀ acc : Option Int, (acc = none ∨ acc = some 49170) →
      scanBody L acc =
        .ok (if L.any (fun l => pyStrip l == "m=audio 49170 RTP/AVP 0")
          then some 49170 else acc) := by
  induction L with
  | nil => intro acc _; simp [scanBody]
  | cons l ls ih =>
    intro acc hacc
    have hgl : goodC1 l = true := hgood l (by simp)
    have hgt : ∀ x ∈ ls, goodC1 x = true := fun x hx => hgood x (by simp [hx])
    by_cases hs0 : pyStrip l = ""
    · have hstep : scanBody (l :: ls) acc = scanBody ls acc := by
        rw [scanBody.eq_def]
        simp only [hs0, eq_self_iff_true, if_true]
      have hany : (pyStrip l == ("m=audio 49170 RTP/AVP 0" : String)) = false := by
        rw [hs0]; decide
      rw [hstep, ih hgt acc hacc, List.any_cons, hany]
      simp
    · cases hsp : pySplitOnce '=' (pyStrip l) with
      | none =>
        exfalso
        rw [goodC1, hsp] at hgl
        simp [hs0] at hgl
      | some kv =>
        obtain ⟨k, v⟩ := kv
        by_cases hm : k = "m"
        · subst hm
          have htar : pyStrip l = "m=audio 49170 RTP/AVP 0" := by
            rw [goodC1, hsp] at hgl
            simp [hs0] at hgl
            exact hgl
          have hsplit : pySplitOnce '=' ("m=audio 49170 RTP/AVP 0" : String) =
              some ("m", "audio 49170 RTP/AVP 0") := rfl
          have hsw : pySplitWs ("audio 49170 RTP/AVP 0" : String) =
              ["audio", "49170", "RTP/AVP", "0"] := rfl
          have hint : pyInt ("49170" : String) = .ok 49170 := by decide
          have hstep : scanBody (l :: ls) acc = scanBody ls (some 49170) := by
            rw [scanBody.eq_def]
            simp only [htar, hsplit, hsw, hint, eq_self_iff_true, if_true]
            rw [if_neg (by decide : ¬ (("m=audio 49170 RTP/AVP 0" : String) = ""))]
          have hany : (pyStrip l == ("m=audio 49170 RTP/AVP 0" : String)) = true := by
            rw [htar]; decide
          rw [hstep, ih hgt (some 49170) (Or.inr rfl), List.any_cons, hany]
          simp
        · have hntar : (pyStrip l == ("m=audio 49170 RTP/AVP 0" : String)) = false := by
            apply beq_eq_false_iff_ne.mpr
            intro hc
            apply hm
            rw [hc] at hsp
            have h0 : pySplitOnce '=' ("m=audio 49170 RTP/AVP 0" : String) =
                some ("m", "audio 49170 RTP/AVP 0") := rfl
            have h1 : some (("m" : String), ("audio 49170 RTP/AVP 0" : String)) = some (k, v) :=
              h0.symm.trans hsp
            cases h1
            rfl
          have hstep : scanBody (l :: ls) acc = scanBody ls acc := by
            rw [scanBody.eq_def]
            simp only [hs0, if_false, hsp, hm]
          rw [hstep, ih hgt acc hacc, List.any_cons, hntar]
          simp

/- the C4-style scan step: one audio media line with a digit-string port -/

theorem audio_line_data (d : String) :
    ("m=audio " ++ d ++ " RTP/AVP 0").data =
      'm' :: (("=audio " ++ d ++ " RTP/AVP ").data ++ ['0']) := by
  simp only [String.data_append, List.append_assoc]
  rfl

theorem scan_audio_line {d : String} (hd : isDigits d = true) (hdne : d ≠ "")
    (ls : List String) (acc : Option Int) :
    scanBody (("m=audio " ++ d ++ " RTP/AVP 0") :: ls) acc =
      scanBody ls (some (digitsVal d)) := by
  have hstrip : pyStrip ("m=audio " ++ d ++ " RTP/AVP 0") = "m=audio " ++ d ++ " RTP/AVP 0" := by
    apply String.ext
    show stripL ("m=audio " ++ d ++ " RTP/AVP 0").data = _
    rw [audio_line_data]
    exact stripL_ends (by decide) (by decide)
  have hlne : ¬ ("m=audio " ++ d ++ " RTP/AVP 0" = "") := by
    apply str_ne_empty
    rw [audio_line_data]
    simp
  have hform : "m=audio " ++ d ++ " RTP/AVP 0" = "m=" ++ ("audio " ++ (d ++ " RTP/AVP 0")) := by
    apply String.ext
    simp [String.data_append]
  have hsplit : pySplitOnce '=' ("m=audio " ++ d ++ " RTP/AVP 0") =
      some ("m", "audio " ++ (d ++ " RTP/AVP 0")) := by
    rw [hform]
    rfl
  have hUdata : ("audio " ++ (d ++ " RTP/AVP 0")).data =
      "audio".data ++ ' ' :: (d.data ++ ' ' :: ("RTP/AVP".data ++ ' ' :: "0".data)) := by
    simp only [String.data_append, List.append_assoc]
    rfl
  have hdmem : ∀ c ∈ d.data, pyIsSpace c = false :=
    fun c hc => digit_not_space (isDigits_mem hd c hc)
  have hddata : d.data ≠ [] := fun hc => hdne (String.ext hc)
  have hsw : pySplitWs ("audio " ++ (d ++ " RTP/AVP 0")) = ["audio", d, "RTP/AVP", "0"] := by
    rw [pySplitWs, hUdata]
    rw [splitWsGo_token (by decide) [] _ (Or.inr (by simp))]
    rw [splitWsGo_token hdmem [] _ (Or.inr hddata)]
    rw [splitWsGo_token (by decide) [] _ (Or.inr (by simp))]
    simp only [List.reverse_nil, List.nil_append, List.map_cons]
    rfl
  have hint : pyInt d = .ok (digitsVal d) := pyInt_digits hd hdne
  rw [scanBody.eq_def]
  simp only [hstrip, hlne, if_false, hsplit, hsw, hint, eq_self_iff_true, if_true]

/- header-line helper lemmas -/

theorem digits_noLBs {s : String} (h : isDigits s = true) : noLBs s = true := by
  simp only [noLBs, List.all_eq_true]
  intro c hc
  simp [digit_not_lb (isDigits_mem h c hc)]

theorem asciiStr_digits {s : String} (h : isDigits s = true) : asciiStr s = true := by
  simp only [asciiStr, List.all_eq_true]
  intro c hc
  simp [digit_ascii (isDigits_mem h c hc)]

theorem pySplitlines_single {l : String} (h : noLBs l = true) (hne : l.data ≠ []) :
    pySplitlines l = [l] := by
  rw [pySplitlines, slGo_end (noLBs_mem h) []]
  simp [hne]

theorem pySplitOnce_colon {n v : String} (h : noColonStr n = true) :
    pySplitOnce ':' (n ++ ":" ++ v) = some (n, v) := by
  have hne : ∀ c ∈ n.data, c ≠ ':' :=
    contains_false_notmem (by simpa [noColonStr] using h)
  have hd : (n ++ ":" ++ v).data = n.data ++ ':' :: v.data := by
    simp [String.data_append]
  show (match splitOnceGo ':' [] (n ++ ":" ++ v).data with
    | none => none
    | some (a, b) => some (String.mk a, String.mk b)) = some (n, v)
  rw [hd, splitOnceGo_key hne [] v.data]
  rfl

theorem header_line_fact {nm val : String} (hn : noColonStr nm = true) :
    pySplitOnce ':' (nm ++ ": " ++ val) = some (nm, " " ++ val) := by
  have hform : nm ++ ": " ++ val = nm ++ ":" ++ (" " ++ val) := by
    apply String.ext
    simp [String.data_append]
  rw [hform]
  exact pySplitOnce_colon hn

theorem hdrOk_mk {h : String} (h1 : h.data ≠ []) (h2 : noLBs h = true)
    (h3 : (pySplitOnce ':' h).isSome = true) : hdrOk h = true := by
  simp [hdrOk, h2, h3, beq_eq_false_iff_ne.mpr (str_ne_empty h1)]

theorem hdrOk_std {nm val : String} (hn : noColonStr nm = true) (hnm : noLBs nm = true)
    (hnmne : nm.data ≠ []) (hval : noLBs val = true) :
    hdrOk (nm ++ ": " ++ val) = true := by
  apply hdrOk_mk
  · rw [String.data_append, String.data_append]
    simp [hnmne]
  · rw [noLBs_append, noLBs_append]
    simp [hnm, hval]
    decide
  · rw [header_line_fact hn]
    rfl

theorem joinCRLF_mkMsg (ls : List String) : ∀ (f b : String),
    joinCRLF (f :: (ls ++ ["\r\n"])) ++ b = mkMsg f ls b := by
  induction ls with
  | nil =>
    intro f b
    apply String.ext
    simp [joinCRLF, mkMsg, mkTail, String.data_append]
  | cons l t ih =>
    intro f b
    show (f ++ "\r\n" ++ joinCRLF (l :: (t ++ ["\r\n"]))) ++ b = mkMsg f (l :: t) b
    rw [str_assoc, ih l b]
    rfl

/- ======================  claim theorems  ====================== -/

/-- Claim C2: for every byte sequence and source address, the receive path
is total (`datagram_received` is a total function into `Option CallInfo`,
mirroring the catch-all `try/except`); in particular, when the bytes are not
valid UTF-8 text, decoding fails and no CallInvitation is emitted. -/
theorem sip_C2 (data : List Nat) (addr : String × Nat) (h : utf8Decode data = none) :
    datagram_received data addr = none := by
  unfold datagram_received
  rw [h]

/-- Witness for C2 at the concrete invalid byte `0xff`. -/
theorem sip_C2_witness :
    utf8Decode [255] = none ∧ datagram_received [255] ("10.0.0.1", 5060) = none :=
  ⟨by decide, sip_C2 [255] ("10.0.0.1", 5060) (by decide)⟩

/-- Counterexample to C3 as stated: for the message
`INVITE sip SIP/2.0\r\na:b\r\n\r\nXYZ` the characters strictly after the
first blank line are `XYZ`, but `_parse_sip` returns the body `\r\nXYZ`,
which still contains the blank-line separator. -/
theorem sip_C3_cex :
    parse_sip "INVITE sip SIP/2.0\r\na:b\r\n\r\nXYZ" =
      .ok (some "INVITE", [("a", "b")], "\r\nXYZ") ∧
    ("\r\nXYZ" : String) ≠ "XYZ" := ⟨by decide, by decide⟩

/-- Claim C3 (amended): for every CRLF-terminated message accepted by
`_parse_sip` (tokenful first line, well-formed header lines, then a blank
line, then the raw remainder `rest`), the returned body is the blank-line
separator `\r\n` followed byte-for-byte by the characters strictly after it
— not re-trimmed and with internal line terminators preserved, but
including the blank-line separator itself. -/
theorem sip_C3 (f : String) (hs : List String) (rest : String) (tok : String)
    (hf1 : firstToken f = some tok) (hf2 : noLBs f = true) (hh : hdrsOk hs = true) :
    parse_sip (mkMsg f hs rest) = .ok (some tok, headersOf hs, "\r\n" ++ rest) :=
  parse_mkMsg f hs rest tok hf1 hf2 hh

/-- Witness for C3 at a concrete message. -/
theorem sip_C3_witness :
    parse_sip (mkMsg "INVITE sip:x SIP/2.0" ["Via: a"] "XY\r\nZ") =
      .ok (some "INVITE", headersOf ["Via: a"], "\r\n" ++ "XY\r\nZ") :=
  sip_C3 "INVITE sip:x SIP/2.0" ["Via: a"] "XY\r\nZ" "INVITE"
    (by decide) (by decide) (by decide)

/-- Counterexample to C6 as stated: parsing the response message
`SIP/2.0 200 OK\r\nVia: x\r\n\r\n` returns the method `SIP/2.0` (the first
token of the status line), not an absent method. -/
theorem sip_C6_cex :
    parse_sip "SIP/2.0 200 OK\r\nVia: x\r\n\r\n" =
      .ok (some "SIP/2.0", [("via", "x")], "\r\n") ∧
    (some "SIP/2.0" : Option String) ≠ none := ⟨by decide, by decide⟩

/-- Claim C6 (amended): `_parse_sip` applies the same first-token rule to
response messages: for any well-formed message whose first line is the
status line `SIP/2.0 200 OK`, the returned method is `some "SIP/2.0"` — it
is never `none` for a response (such messages are later ignored by the
receive path only because `"sip/2.0" != "invite"`). -/
theorem sip_C6 (hs : List String) (rest : String) (hh : hdrsOk hs = true) :
    parse_sip (mkMsg "SIP/2.0 200 OK" hs rest) =
      .ok (some "SIP/2.0", headersOf hs, "\r\n" ++ rest) :=
  parse_mkMsg "SIP/2.0 200 OK" hs rest "SIP/2.0" (by decide) (by decide) hh

/-- Witness for C6 at a concrete response message. -/
theorem sip_C6_witness :
    parse_sip (mkMsg "SIP/2.0 200 OK" ["Via: x"] "") =
      .ok (some "SIP/2.0", headersOf ["Via: x"], "\r\n" ++ "") :=
  sip_C6 ["Via: x"] "" (by decide)

/-- Claim C7: with no transport bound, every `answer` call fails with the
`AssertionError` raised by `assert self.transport is not None`; the error is
surfaced to the caller (there is no `try/except` in `answer`) and no
datagram is produced. -/
theorem sip_C7 (headers : HMap) (caller_ip : String) (caller_sip_port : Nat)
    (server_ip : String) (server_rtp_port : Nat) :
    answer none headers caller_ip caller_sip_port server_ip server_rtp_port =
      .error .assertionError ∧
    ∀ r : String × String × Nat,
      answer none headers caller_ip caller_sip_port server_ip server_rtp_port ≠ .ok r :=
  ⟨rfl, fun _ h => Except.noConfusion h⟩

/-- Claim C9: `answer` is deterministic and idempotent — one method call
reads `self.transport` and assigns no attribute, so the instance state is
returned unchanged, and a second call with identical arguments produces the
same result, hence byte-identical response datagrams. -/
theorem sip_C9 (p : SipProto) (headers : HMap) (caller_ip : String) (caller_sip_port : Nat)
    (server_ip : String) (server_rtp_port : Nat) :
    (answerCall p headers caller_ip caller_sip_port server_ip server_rtp_port).1 = p ∧
    (answerCall (answerCall p headers caller_ip caller_sip_port server_ip server_rtp_port).1
        headers caller_ip caller_sip_port server_ip server_rtp_port).2 =
      (answerCall p headers caller_ip caller_sip_port server_ip server_rtp_port).2 ∧
    ((answerCall (answerCall p headers caller_ip caller_sip_port server_ip server_rtp_port).1
        headers caller_ip caller_sip_port server_ip server_rtp_port).2).map
          (fun r => utf8Encode r.1) =
      ((answerCall p headers caller_ip caller_sip_port server_ip server_rtp_port).2).map
        (fun r => utf8Encode r.1) :=
  ⟨rfl, rfl, rfl⟩

/-- Claim C8: header names are lower-cased and values trimmed (`VIA: foo`
and `via: foo` both populate key `via` with value `foo`), and on duplicate
names (same lower-cased form) the mapping holds the last occurrence's value
with a unique key. -/
theorem sip_C8 (f tok n1 v1 n2 v2 : String) (rest : String)
    (hf1 : firstToken f = some tok) (hf2 : noLBs f = true)
    (h1 : hdrOk (n1 ++ ":" ++ v1) = true) (h2 : hdrOk (n2 ++ ":" ++ v2) = true)
    (hc1 : noColonStr n1 = true) (hc2 : noColonStr n2 = true)
    (heq : pyLower n1 = pyLower n2) :
    (parse_sip (mkMsg f ["VIA: foo"] rest) =
        .ok (some tok, [("via", "foo")], "\r\n" ++ rest) ∧
     parse_sip (mkMsg f ["via: foo"] rest) =
        .ok (some tok, [("via", "foo")], "\r\n" ++ rest)) ∧
    parse_sip (mkMsg f [n1 ++ ":" ++ v1, n2 ++ ":" ++ v2] rest) =
      .ok (some tok, [(pyLower n2, pyStrip v2)], "\r\n" ++ rest) := by
  refine ⟨⟨?_, ?_⟩, ?_⟩
  · rw [parse_mkMsg f ["VIA: foo"] rest tok hf1 hf2 (by decide)]
    rfl
  · rw [parse_mkMsg f ["via: foo"] rest tok hf1 hf2 (by decide)]
    rfl
  · have hsp1 : pySplitOnce ':' (n1 ++ ":" ++ v1) = some (n1, v1) := pySplitOnce_colon hc1
    have hsp2 : pySplitOnce ':' (n2 ++ ":" ++ v2) = some (n2, v2) := pySplitOnce_colon hc2
    have hOK : hdrsOk [n1 ++ ":" ++ v1, n2 ++ ":" ++ v2] = true := by
      simp [hdrsOk, h1, h2]
    have hH : headersOf [n1 ++ ":" ++ v1, n2 ++ ":" ++ v2] = [(pyLower n2, pyStrip v2)] := by
      simp only [headersOf, List.foldl_cons, List.foldl_nil, hstep, hsp1, hsp2, hinsert,
        heq, eq_self_iff_true, if_true]
    rw [parse_mkMsg f [n1 ++ ":" ++ v1, n2 ++ ":" ++ v2] rest tok hf1 hf2 hOK, hH]

/-- Witness for C8: `VIA`/`via` with values needing a trim. -/
theorem sip_C8_witness :
    (parse_sip (mkMsg "INVITE sip:x SIP/2.0" ["VIA: foo"] "") =
        .ok (some "INVITE", [("via", "foo")], "\r\n" ++ "") ∧
     parse_sip (mkMsg "INVITE sip:x SIP/2.0" ["via: foo"] "") =
        .ok (some "INVITE", [("via", "foo")], "\r\n" ++ "")) ∧
    parse_sip (mkMsg "INVITE sip:x SIP/2.0" ["VIA" ++ ":" ++ " a", "via" ++ ":" ++ " b"] "") =
      .ok (some "INVITE", [(pyLower "via", pyStrip " b")], "\r\n" ++ "") :=
  sip_C8 "INVITE sip:x SIP/2.0" "INVITE" "VIA" " a" "via" " b" ""
    (by decide) (by decide) (by decide) (by decide) (by decide) (by decide) (by decide)

/-- Counterexample to C1 as stated: a datagram whose parsed message is an
INVITE, whose body contains the line `m=audio 49170 RTP/AVP 0` and whose
`to` header equals `<sip:192.0.2.10:5060>;tag=abc`, yet the emitted
CallInvitation carries `caller_rtp_port = 50000` (a later audio media line
overwrites the earlier one), not `49170`. -/
theorem sip_C1_cex :
    handleMessage
        "INVITE sip:x SIP/2.0\r\nVia: SIP/2.0/UDP 10.0.0.1\r\nTo: <sip:192.0.2.10:5060>;tag=abc\r\nFrom: caller\r\n\r\nm=audio 49170 RTP/AVP 0\r\nm=audio 50000 RTP/AVP 0"
        ("10.0.0.1", 1234) =
      some ⟨"10.0.0.1", 1234, 50000, "192.0.2.10",
        [("via", "SIP/2.0/UDP 10.0.0.1"), ("to", "<sip:192.0.2.10:5060>;tag=abc"),
         ("from", "caller")]⟩ ∧
    (50000 : Int) ≠ 49170 := ⟨by decide, by decide⟩

/-- Claim C1 (amended): for every CRLF-terminated datagram whose parsed
message is an INVITE, whose `to` header is `<sip:192.0.2.10:5060>;tag=abc`,
and whose body lines are all well-formed `key=value` lines in which every
`m`-keyed line equals `m=audio 49170 RTP/AVP 0` (at least one present), the
receive path emits exactly one CallInvitation, with
`caller_rtp_port = 49170` and `server_ip = "192.0.2.10"` (a `some` result
models exactly one `on_call` invocation). -/
theorem sip_C1 (f tok : String) (hs : List String) (rest : String) (addr : String × Nat)
    (hf1 : firstToken f = some tok) (hf2 : noLBs f = true) (hh : hdrsOk hs = true)
    (hinv : pyLower tok = "invite")
    (hto : hfind (headersOf hs) "to" = some "<sip:192.0.2.10:5060>;tag=abc")
    (hgood : (pySplitlines rest).all goodC1 = true)
    (hex : (pySplitlines rest).any
      (fun l => pyStrip l == "m=audio 49170 RTP/AVP 0") = true) :
    handleMessage (mkMsg f hs rest) addr =
      some ⟨addr.1, addr.2, 49170, "192.0.2.10", headersOf hs⟩ := by
  have hparse := parse_mkMsg f hs rest tok hf1 hf2 hh
  have h2 : processMessage (mkMsg f hs rest) addr =
      if tok ≠ "" ∧ pyLower tok ≠ "invite" then .ok none
      else processInvite (headersOf hs) ("\r\n" ++ rest) addr := by
    simp only [processMessage]
    rw [hparse]
  have hscan : scanBody (pySplitlines ("\r\n" ++ rest)) none = .ok (some 49170) := by
    rw [pySplitlines_crlf rest, scanBody_blank]
    rw [scanBody_good (List.all_eq_true.mp hgood) none (Or.inl rfl)]
    simp only [hex, if_true]
  have hPI : processInvite (headersOf hs) ("\r\n" ++ rest) addr =
      .ok (some ⟨addr.1, addr.2, 49170, "192.0.2.10", headersOf hs⟩) := by
    simp only [processInvite]
    rw [hscan, hto]
    rfl
  have hPM : processMessage (mkMsg f hs rest) addr =
      .ok (some ⟨addr.1, addr.2, 49170, "192.0.2.10", headersOf hs⟩) := by
    rw [h2, if_neg (fun hcon => hcon.2 hinv), hPI]
  simp only [handleMessage]
  rw [hPM]

/-- Witness for C1 at a concrete well-formed invitation. -/
theorem sip_C1_witness :
    handleMessage
        (mkMsg "INVITE sip:x SIP/2.0" ["To: <sip:192.0.2.10:5060>;tag=abc"]
          "m=audio 49170 RTP/AVP 0")
        ("10.0.0.9", 7777) =
      some ⟨"10.0.0.9", 7777, 49170, "192.0.2.10",
        headersOf ["To: <sip:192.0.2.10:5060>;tag=abc"]⟩ :=
  sip_C1 "INVITE sip:x SIP/2.0" "INVITE" ["To: <sip:192.0.2.10:5060>;tag=abc"]
    "m=audio 49170 RTP/AVP 0" ("10.0.0.9", 7777)
    (by decide) (by decide) (by decide) (by decide) (by decide) (by decide) (by decide)

/-- Counterexample to C4 as stated: a body with two audio media lines
(ports 1000 then 2000) yields a CallInvitation whose `caller_rtp_port` is
2000, the port of the last media line — not 1000, the port of the first. -/
theorem sip_C4_cex :
    handleMessage
        "INVITE sip:y SIP/2.0\r\nTo: <sip:192.0.2.20:5060>;tag=xyz\r\n\r\nm=audio 1000 RTP/AVP 0\r\nm=audio 2000 RTP/AVP 0"
        ("10.0.0.2", 2222) =
      some ⟨"10.0.0.2", 2222, 2000, "192.0.2.20",
        [("to", "<sip:192.0.2.20:5060>;tag=xyz")]⟩ ∧
    (2000 : Int) ≠ 1000 := ⟨by decide, by decide⟩

/-- Under `scanOkLine` lines the body scan of `datagram_received` never
raises and computes exactly the last-audio-line accumulation: each audio
media line overwrites the accumulated port, every other line is skipped. -/
theorem scanBody_foldl {L : List String} (hok : ∀ l ∈ L, scanOkLine l = true) :
    ∀ acc : Option Int, scanBody L acc = .ok (lastAudioPortFrom acc L) := by
  induction L with
  | nil => intro acc; rfl
  | cons l ls ih =>
    intro acc
    have hokl : scanOkLine l = true := hok l (by simp)
    have hokt : ∀ x ∈ ls, scanOkLine x = true := fun x hx => hok x (by simp [hx])
    by_cases hs0 : pyStrip l = ""
    · have hstep : scanBody (l :: ls) acc = scanBody ls acc := by
        rw [scanBody.eq_def]
        simp only [hs0, eq_self_iff_true, if_true]
      have hap : audioPortOf l = none := by
        simp only [audioPortOf, hs0]
        rfl
      rw [hstep, ih hokt acc]
      simp only [lastAudioPortFrom, List.foldl_cons, hap]
    · cases hsp : pySplitOnce '=' (pyStrip l) with
      | none =>
        exfalso
        rw [scanOkLine, hsp] at hokl
        simp [hs0] at hokl
      | some kv =>
        obtain ⟨k, v⟩ := kv
        by_cases hm : k = "m"
        · subst hm
          cases hsw : pySplitWs v with
          | nil =>
            exfalso
            rw [scanOkLine, hsp] at hokl
            simp [hs0, hsw] at hokl
          | cons p0 rest =>
            by_cases hp0 : p0 = "audio"
            · subst hp0
              cases rest with
              | nil =>
                exfalso
                rw [scanOkLine, hsp] at hokl
                simp [hs0, hsw] at hokl
              | cons p1 ps =>
                cases hint : pyInt p1 with
                | error e =>
                  exfalso
                  rw [scanOkLine, hsp] at hokl
                  simp [hs0, hsw, hint] at hokl
                | ok n =>
                  have hstep : scanBody (l :: ls) acc = scanBody ls (some n) := by
                    rw [scanBody.eq_def]
                    simp only [hs0, if_false, hsp, hsw, hint, eq_self_iff_true, if_true]
                  have hap : audioPortOf l = some n := by
                    simp only [audioPortOf, hsp, hsw, hint, eq_self_iff_true, if_true]
                  rw [hstep, ih hokt (some n)]
                  simp only [lastAudioPortFrom, List.foldl_cons, hap]
            · have hstep : scanBody (l :: ls) acc = scanBody ls acc := by
                rw [scanBody.eq_def]
                simp only [hs0, if_false, hsp, hsw, hp0, eq_self_iff_true, if_true]
              have hap : audioPortOf l = none := by
                simp only [audioPortOf, hsp, hsw, hp0, eq_self_iff_true, if_true, if_false]
              rw [hstep, ih hokt acc]
              simp only [lastAudioPortFrom, List.foldl_cons, hap]
        · have hstep : scanBody (l :: ls) acc = scanBody ls acc := by
            rw [scanBody.eq_def]
            simp only [hs0, if_false, hsp, hm]
          have hap : audioPortOf l = none := by
            simp only [audioPortOf, hsp, hm, if_false]
          rw [hstep, ih hokt acc]
          simp only [lastAudioPortFrom, List.foldl_cons, hap]

/-- Claim C4 (amended): for every invitation whose body lines the scan
processes without raising, whenever the body contains audio media lines
(in particular more than one, in any number, with any value tails,
interleaved with arbitrary other session-description lines, and with any
`To` header the address regex matches), the emitted CallInvitation's
`caller_rtp_port` is the integer second token of the LAST audio media line
(`lastAudioPort`) — the scan has no break, so later audio media lines
overwrite earlier ones. -/
theorem sip_C4 (f tok : String) (hs : List String) (rest : String) (addr : String × Nat)
    (toV ip : String) (p : Int)
    (hf1 : firstToken f = some tok) (hf2 : noLBs f = true) (hh : hdrsOk hs = true)
    (hinv : pyLower tok = "invite")
    (hto : hfind (headersOf hs) "to" = some toV)
    (hip : sipIpMatch toV = some ip)
    (hok : (pySplitlines rest).all scanOkLine = true)
    (hlast : lastAudioPort (pySplitlines rest) = some p) :
    handleMessage (mkMsg f hs rest) addr =
      some ⟨addr.1, addr.2, p, ip, headersOf hs⟩ := by
  have hparse := parse_mkMsg f hs rest tok hf1 hf2 hh
  have h2 : processMessage (mkMsg f hs rest) addr =
      if tok ≠ "" ∧ pyLower tok ≠ "invite" then .ok none
      else processInvite (headersOf hs) ("\r\n" ++ rest) addr := by
    simp only [processMessage]
    rw [hparse]
  have hlast2 : lastAudioPortFrom none (pySplitlines rest) = some p := hlast
  have hscan : scanBody (pySplitlines ("\r\n" ++ rest)) none = .ok (some p) := by
    rw [pySplitlines_crlf rest, scanBody_blank]
    rw [scanBody_foldl (List.all_eq_true.mp hok) none, hlast2]
  have hPI : processInvite (headersOf hs) ("\r\n" ++ rest) addr =
      .ok (some ⟨addr.1, addr.2, p, ip, headersOf hs⟩) := by
    simp only [processInvite]
    rw [hscan, hto]
    show (match sipIpMatch toV with
      | none => (Except.error PyErr.assertionError : Except PyErr (Option CallInfo))
      | some serverIp =>
        Except.ok (some (CallInfo.mk addr.1 addr.2 p serverIp (headersOf hs)))) =
      Except.ok (some (CallInfo.mk addr.1 addr.2 p ip (headersOf hs)))
    rw [hip]
  have hPM : processMessage (mkMsg f hs rest) addr =
      .ok (some ⟨addr.1, addr.2, p, ip, headersOf hs⟩) := by
    rw [h2, if_neg (fun hcon => hcon.2 hinv), hPI]
  simp only [handleMessage]
  rw [hPM]

/-- Witness for C4: three audio media lines with different tails,
interleaved with other session-description lines, and a different matching
address — the last audio line's port 3000 is emitted. -/
theorem sip_C4_witness :
    handleMessage
        (mkMsg "INVITE sip:y SIP/2.0" ["To: <sip:203.0.113.7:5061>;x=1"]
          "v=0\r\nm=audio 1000 RTP/AVP 0\r\nc=IN IP4 10.0.0.2\r\nm=video 9 RTP/AVP 99\r\nm=audio 2000 RTP/AVP 0 8\r\nm=audio 3000 RTP/AVP 96\r\na=sendrecv")
        ("10.0.0.3", 3333) =
      some ⟨"10.0.0.3", 3333, 3000, "203.0.113.7",
        headersOf ["To: <sip:203.0.113.7:5061>;x=1"]⟩ :=
  sip_C4 "INVITE sip:y SIP/2.0" "INVITE" ["To: <sip:203.0.113.7:5061>;x=1"]
    "v=0\r\nm=audio 1000 RTP/AVP 0\r\nc=IN IP4 10.0.0.2\r\nm=video 9 RTP/AVP 99\r\nm=audio 2000 RTP/AVP 0 8\r\nm=audio 3000 RTP/AVP 96\r\na=sendrecv"
    ("10.0.0.3", 3333) "<sip:203.0.113.7:5061>;x=1" "203.0.113.7" 3000
    (by decide) (by decide) (by decide) (by decide) (by decide)
    (by decide) (by decide) (by decide)

/-- Claim C10: for every parsed invitation whose body contains a
stripped-nonempty line without `=`, the body scan raises `ValueError` (or an
earlier per-line error), the exception is caught, and no CallInvitation is
emitted — even when another body line is a valid audio media line. -/
theorem sip_C10 (msg : String) (addr : String × Nat) (m : Option String) (hm : HMap)
    (b : String)
    (hp : parse_sip msg = .ok (m, hm, b))
    (hinv : methodInvite m = true)
    (hbad : (pySplitlines b).any badEqLine = true) :
    handleMessage msg addr = none := by
  obtain ⟨l0, hl0, hbadl⟩ := List.any_eq_true.mp hbad
  obtain ⟨e, he⟩ := scanBody_bad ⟨l0, hl0, hbadl⟩ (none : Option Int)
  have hPI : processInvite hm b addr = .error e := by
    simp only [processInvite]
    rw [he]
  have hPM : processMessage msg addr = .error e := by
    simp only [processMessage]
    rw [hp]
    cases m with
    | none => exact hPI
    | some t =>
      have ht : pyLower t = "invite" := by simpa [methodInvite] using hinv
      show (if t ≠ "" ∧ pyLower t ≠ "invite" then Except.ok none
        else processInvite hm b addr) = .error e
      rw [if_neg (fun hcon => hcon.2 ht), hPI]
  simp only [handleMessage]
  rw [hPM]

/-- Witness for C10: a junk body line aborts the scan although a valid
audio media line follows. -/
theorem sip_C10_witness :
    handleMessage
        "INVITE sip:x SIP/2.0\r\nTo: <sip:192.0.2.10:5060>;tag=abc\r\n\r\njunk\r\nm=audio 49170 RTP/AVP 0"
        ("10.0.0.9", 7777) = none :=
  sip_C10
    "INVITE sip:x SIP/2.0\r\nTo: <sip:192.0.2.10:5060>;tag=abc\r\n\r\njunk\r\nm=audio 49170 RTP/AVP 0"
    ("10.0.0.9", 7777) (some "INVITE") [("to", "<sip:192.0.2.10:5060>;tag=abc")]
    "\r\njunk\r\nm=audio 49170 RTP/AVP 0"
    (by decide) (by decide) (by decide)

theorem asciiStr_joinCRLF {L : List String} (h : ∀ l ∈ L, asciiStr l = true) :
    asciiStr (joinCRLF L) = true := by
  induction L with
  | nil => decide
  | cons l ls ih =>
    cases ls with
    | nil => simpa [joinCRLF] using h l (by simp)
    | cons m ms =>
      have hstep : joinCRLF (l :: m :: ms) = l ++ "\r\n" ++ joinCRLF (m :: ms) := rfl
      rw [hstep, asciiStr_append, asciiStr_append]
      have h1 : asciiStr l = true := h l (by simp)
      have h2 : asciiStr (joinCRLF (m :: ms)) = true :=
        ih (fun x hx => h x (by simp [List.mem_cons.mp hx]))
      simp [h1, h2]
      decide

/-- Claim C5 (round-trip): with the six inbound headers `via=X, from=Y,
to=Z, call-id=C, cseq=CS, contact=K` (values trimmed and free of line
boundaries, as header values produced by `Parse` are) and an ASCII local
address, `answer` hands the formatted response to the transport, and
re-parsing that response with `_parse_sip` yields the six values unchanged,
plus a `content-length` header equal to the decimal byte length of the
formatted SDP body. -/
theorem sip_C5 (X Y Z C CS K ip : String) (port : Nat) (cip : String) (cport : Nat)
    (hX : pyStrip X = X) (hXl : noLBs X = true)
    (hY : pyStrip Y = Y) (hYl : noLBs Y = true)
    (hZ : pyStrip Z = Z) (hZl : noLBs Z = true)
    (hC : pyStrip C = C) (hCl : noLBs C = true)
    (hCS : pyStrip CS = CS) (hCSl : noLBs CS = true)
    (hK : pyStrip K = K) (hKl : noLBs K = true)
    (hip : asciiStr ip = true) :
    answer (some ())
        [("via", X), ("from", Y), ("to", Z), ("call-id", C), ("cseq", CS), ("contact", K)]
        cip cport ip port =
      .ok (responseString X Y Z C CS K (sdpBody ip port), cip, cport) ∧
    parse_sip (responseString X Y Z C CS K (sdpBody ip port)) =
      .ok (some "SIP/2.0",
        [("via", X), ("from", Y), ("to", Z), ("call-id", C),
         ("content-type", "application/sdp"),
         ("content-length", natToDec (utf8Len (sdpBody ip port))),
         ("cseq", CS), ("contact", K),
         ("user-agent", "homeassistant 1.0"),
         ("allow", "INVITE, ACK, BYE, CANCEL, OPTIONS")],
        "\r\n" ++ sdpBody ip port) := by
  refine ⟨rfl, ?_⟩
  have hB : asciiStr (sdpBody ip port) = true := by
    apply asciiStr_joinCRLF
    intro l hl
    simp only [bodyLines, List.mem_cons, List.not_mem_nil, or_false] at hl
    rcases hl with rfl | rfl | rfl | rfl | rfl | rfl | rfl | rfl | rfl | rfl | rfl
    · decide
    · rw [asciiStr_append, asciiStr_append, asciiStr_append, asciiStr_append, asciiStr_append]
      simp [hip]
      decide
    · decide
    · rw [asciiStr_append]
      simp [hip]
      decide
    · decide
    · rw [asciiStr_append, asciiStr_append, asciiStr_append]
      simp [asciiStr_digits (natToDec_digits port)]
      decide
    · decide
    · decide
    · decide
    · decide
    · decide
  have hRmk : responseString X Y Z C CS K (sdpBody ip port) =
      mkMsg "SIP/2.0 200 OK"
        ["Via" ++ ": " ++ X, "From" ++ ": " ++ Y, "To" ++ ": " ++ Z,
         "Call-ID" ++ ": " ++ C,
         "Content-Type" ++ ": " ++ "application/sdp",
         "Content-Length" ++ ": " ++ natToDec (pyLen (sdpBody ip port)),
         "CSeq" ++ ": " ++ CS, "Contact" ++ ": " ++ K,
         "User-Agent" ++ ": " ++ "homeassistant 1.0",
         "Allow" ++ ": " ++ "INVITE, ACK, BYE, CANCEL, OPTIONS"] (sdpBody ip port) := by
    show joinCRLF ("SIP/2.0 200 OK" ::
      (["Via" ++ ": " ++ X, "From" ++ ": " ++ Y, "To" ++ ": " ++ Z,
        "Call-ID" ++ ": " ++ C,
        "Content-Type" ++ ": " ++ "application/sdp",
        "Content-Length" ++ ": " ++ natToDec (pyLen (sdpBody ip port)),
        "CSeq" ++ ": " ++ CS, "Contact" ++ ": " ++ K,
        "User-Agent" ++ ": " ++ "homeassistant 1.0",
        "Allow" ++ ": " ++ "INVITE, ACK, BYE, CANCEL, OPTIONS"] ++ ["\r\n"])) ++
      sdpBody ip port = _
    exact joinCRLF_mkMsg _ _ _
  have e1 : hdrOk ("Via" ++ ": " ++ X) = true :=
    hdrOk_std (by decide) (by decide) (by decide) hXl
  have e2 : hdrOk ("From" ++ ": " ++ Y) = true :=
    hdrOk_std (by decide) (by decide) (by decide) hYl
  have e3 : hdrOk ("To" ++ ": " ++ Z) = true :=
    hdrOk_std (by decide) (by decide) (by decide) hZl
  have e4 : hdrOk ("Call-ID" ++ ": " ++ C) = true :=
    hdrOk_std (by decide) (by decide) (by decide) hCl
  have e5 : hdrOk ("Content-Type" ++ ": " ++ "application/sdp") = true :=
    hdrOk_std (by decide) (by decide) (by decide) (by decide)
  have e6 : hdrOk ("Content-Length" ++ ": " ++ natToDec (pyLen (sdpBody ip port))) = true :=
    hdrOk_std (by decide) (by decide) (by decide)
      (digits_noLBs (natToDec_digits (pyLen (sdpBody ip port))))
  have e7 : hdrOk ("CSeq" ++ ": " ++ CS) = true :=
    hdrOk_std (by decide) (by decide) (by decide) hCSl
  have e8 : hdrOk ("Contact" ++ ": " ++ K) = true :=
    hdrOk_std (by decide) (by decide) (by decide) hKl
  have e9 : hdrOk ("User-Agent" ++ ": " ++ "homeassistant 1.0") = true :=
    hdrOk_std (by decide) (by decide) (by decide) (by decide)
  have e10 : hdrOk ("Allow" ++ ": " ++ "INVITE, ACK, BYE, CANCEL, OPTIONS") = true :=
    hdrOk_std (by decide) (by decide) (by decide) (by decide)
  have hOK : hdrsOk
      ["Via" ++ ": " ++ X, "From" ++ ": " ++ Y, "To" ++ ": " ++ Z,
       "Call-ID" ++ ": " ++ C,
       "Content-Type" ++ ": " ++ "application/sdp",
       "Content-Length" ++ ": " ++ natToDec (pyLen (sdpBody ip port)),
       "CSeq" ++ ": " ++ CS, "Contact" ++ ": " ++ K,
       "User-Agent" ++ ": " ++ "homeassistant 1.0",
       "Allow" ++ ": " ++ "INVITE, ACK, BYE, CANCEL, OPTIONS"] = true := by
    simp only [hdrsOk, List.all_cons, List.all_nil, Bool.and_eq_true, and_true]
    exact ⟨e1, e2, e3, e4, e5, e6, e7, e8, e9, e10⟩
  have hparse := parse_mkMsg "SIP/2.0 200 OK"
    ["Via" ++ ": " ++ X, "From" ++ ": " ++ Y, "To" ++ ": " ++ Z,
     "Call-ID" ++ ": " ++ C,
     "Content-Type" ++ ": " ++ "application/sdp",
     "Content-Length" ++ ": " ++ natToDec (pyLen (sdpBody ip port)),
     "CSeq" ++ ": " ++ CS, "Contact" ++ ": " ++ K,
     "User-Agent" ++ ": " ++ "homeassistant 1.0",
     "Allow" ++ ": " ++ "INVITE, ACK, BYE, CANCEL, OPTIONS"]
    (sdpBody ip port) "SIP/2.0" (by decide) (by decide) hOK
  have hHOf : headersOf
      ["Via" ++ ": " ++ X, "From" ++ ": " ++ Y, "To" ++ ": " ++ Z,
       "Call-ID" ++ ": " ++ C,
       "Content-Type" ++ ": " ++ "application/sdp",
       "Content-Length" ++ ": " ++ natToDec (pyLen (sdpBody ip port)),
       "CSeq" ++ ": " ++ CS, "Contact" ++ ": " ++ K,
       "User-Agent" ++ ": " ++ "homeassistant 1.0",
       "Allow" ++ ": " ++ "INVITE, ACK, BYE, CANCEL, OPTIONS"] =
      [("via", pyStrip (" " ++ X)), ("from", pyStrip (" " ++ Y)), ("to", pyStrip (" " ++ Z)),
       ("call-id", pyStrip (" " ++ C)), ("content-type", "application/sdp"),
       ("content-length", pyStrip (" " ++ natToDec (pyLen (sdpBody ip port)))),
       ("cseq", pyStrip (" " ++ CS)), ("contact", pyStrip (" " ++ K)),
       ("user-agent", "homeassistant 1.0"),
       ("allow", "INVITE, ACK, BYE, CANCEL, OPTIONS")] := rfl
  rw [hRmk, hparse, hHOf]
  rw [strip_space_append hX, strip_space_append hY, strip_space_append hZ,
    strip_space_append hC, strip_space_append hCS, strip_space_append hK,
    strip_space_append (strip_digits (natToDec_digits (pyLen (sdpBody ip port))))]
  rw [utf8Len_ascii hB]

/-- Witness for C5 at concrete headers and endpoint values. -/
theorem sip_C5_witness :
    answer (some ())
        [("via", "V1"), ("from", "F1"), ("to", "T1"), ("call-id", "C1"),
         ("cseq", "1 INVITE"), ("contact", "K1")]
        "10.0.0.1" 5060 "192.0.2.5" 5004 =
      .ok (responseString "V1" "F1" "T1" "C1" "1 INVITE" "K1" (sdpBody "192.0.2.5" 5004),
        "10.0.0.1", 5060) ∧
    parse_sip (responseString "V1" "F1" "T1" "C1" "1 INVITE" "K1" (sdpBody "192.0.2.5" 5004)) =
      .ok (some "SIP/2.0",
        [("via", "V1"), ("from", "F1"), ("to", "T1"), ("call-id", "C1"),
         ("content-type", "application/sdp"),
         ("content-length", natToDec (utf8Len (sdpBody "192.0.2.5" 5004))),
         ("cseq", "1 INVITE"), ("contact", "K1"),
         ("user-agent", "homeassistant 1.0"),
         ("allow", "INVITE, ACK, BYE, CANCEL, OPTIONS")],
        "\r\n" ++ sdpBody "192.0.2.5" 5004) :=
  sip_C5 "V1" "F1" "T1" "C1" "1 INVITE" "K1" "192.0.2.5" 5004 "10.0.0.1" 5060
    (by decide) (by decide) (by decide) (by decide) (by decide) (by decide)
    (by decide) (by decide) (by decide) (by decide) (by decide) (by decide) (by decide)
